import Mathlib

/-!
Verification of the raster `editor` module (`src/editor.rs`).

The file embeds the editor's operations — `blend`, `crop`, `fill`, `resize` —
as executable Lean functions.  Machine integers (`i32`) are modelled as `Int`
(none of the verified arithmetic approaches the `i32` range), byte buffers as
lists, and fallible Rust functions as `Except` values.  Collaborating code
that lives outside `editor.rs` (the `Image`/`Color` data types, the position
resolver, the per-mode blend and resize kernels) is modelled from the design
document, as indicated in the corresponding doc comments.
-/

namespace Raster

/-- Modelled from the spec: `Color` (§3), an RGBA tuple of four u8 channels.
Channel values are `Nat`s; only exact preservation of channels is at stake in
the verified properties, never arithmetic on them. -/
structure Color where
  r : Nat
  g : Nat
  b : Nat
  a : Nat
deriving DecidableEq

/-- Constructor mirroring `Color::rgba(r, g, b, a)`. -/
def Color.rgba (r g b a : Nat) : Color := ⟨r, g, b, a⟩

/-- Modelled from the spec: `Image` (§3) owns `width`, `height` and a
row-major pixel buffer.  The spec's flat `u8` byte buffer of length
`width * height * 4` is represented with one `Color` (4 channels) per pixel;
`Image.bytes` below recovers the flat byte view. -/
structure Image where
  width : Int
  height : Int
  pixels : List Color
deriving DecidableEq

attribute [ext] Color Image

/-- The flat `R,G,B,A` byte sequence of an image, as in the spec's data
model (`bytes`). -/
def Image.bytes (img : Image) : List Nat :=
  (img.pixels.map fun c => [c.r, c.g, c.b, c.a]).flatten

/-- Modelled from the spec: a blank image is zero-filled with the given
dimensions (§3).  A non-positive dimension yields an empty buffer, matching
an empty `0..n` iteration. -/
def Image.blank (w h : Int) : Image :=
  ⟨w, h, List.replicate (h.toNat * w.toNat) ⟨0, 0, 0, 0⟩⟩

/-- The Image invariant of the spec (§3): dimensions are non-negative and the
buffer length matches `width * height` pixels. -/
def Image.WF (img : Image) : Prop :=
  0 ≤ img.width ∧ 0 ≤ img.height ∧
    img.pixels.length = (img.width * img.height).toNat

instance (img : Image) : Decidable img.WF := by
  unfold Image.WF; infer_instance

/-- Errors surfaced by the editor layer.  The enum itself lives outside
`src/` and is modelled from the spec (§7); `editor.rs` names the variants
`BlendingImageFallsOutsideCanvas`, `InvalidBlendMode` and
`InvalidResiveMode` (the source's spelling of the resize-mode error), and
pixel reads/writes fail with an out-of-bounds pixel error. -/
inductive RasterError where
  | blendingImageFallsOutsideCanvas
  | invalidBlendMode (mode : String)
  | invalidResizeMode (mode : String)
  | pixelOutOfBounds (x y : Int)
deriving DecidableEq

instance {ε : Type u} {α : Type v} [DecidableEq ε] [DecidableEq α] :
    DecidableEq (Except ε α) := fun x y =>
  match x, y with
  | Except.ok a, Except.ok b =>
      if h : a = b then Decidable.isTrue (congrArg Except.ok h)
      else Decidable.isFalse fun hc => h (Except.ok.inj hc)
  | Except.error a, Except.error b =>
      if h : a = b then Decidable.isTrue (congrArg Except.error h)
      else Decidable.isFalse fun hc => h (Except.error.inj hc)
  | Except.ok _, Except.error _ => Decidable.isFalse fun hc => Except.noConfusion hc
  | Except.error _, Except.ok _ => Decidable.isFalse fun hc => Except.noConfusion hc

/-- Modelled from the spec: reading pixel `(x, y)` fails iff the index falls
out of range (§7); in range it returns the stored RGBA value. -/
def Image.get_pixel (img : Image) (x y : Int) : Except RasterError Color :=
  if 0 ≤ x ∧ x < img.width ∧ 0 ≤ y ∧ y < img.height then
    match img.pixels[(y * img.width + x).toNat]? with
    | some c => Except.ok c
    | none => Except.error (RasterError.pixelOutOfBounds x y)
  else Except.error (RasterError.pixelOutOfBounds x y)

/-- Modelled from the spec: writing pixel `(x, y)` fails iff the index falls
out of range (§7); in range it stores the RGBA value at the row-major
position. -/
def Image.set_pixel (img : Image) (x y : Int) (c : Color) : Except RasterError Image :=
  if 0 ≤ x ∧ x < img.width ∧ 0 ≤ y ∧ y < img.height then
    Except.ok { img with pixels := img.pixels.set (y * img.width + x).toNat c }
  else Except.error (RasterError.pixelOutOfBounds x y)

/-- Total read of the pixel buffer (defaulting out of range); used to phrase
buffer contents positionally. -/
def Image.pixelAt (img : Image) (x y : Int) : Color :=
  img.pixels.getD (y * img.width + x).toNat ⟨0, 0, 0, 0⟩

/-- Modelled from the spec: the nine symbolic anchors of the Position
Resolver (§4.1), `{top, center, bottom} × {left, center, right}`. -/
inductive Position where
  | topLeft
  | topCenter
  | topRight
  | centerLeft
  | center
  | centerRight
  | bottomLeft
  | bottomCenter
  | bottomRight
deriving DecidableEq

/-- Modelled from the spec: the Position Resolver (§4.1), `Position::get_x_y`
in the source.  Base x is `0` / `(canvas_width - overlay_width) / 2` /
`canvas_width - overlay_width` for left/center/right (truncating division,
i.e. `Int.tdiv`, as in Rust), base y analogously, then the pixel offsets are
added.  Pure and total. -/
def getXY (position : Position) (offset_x offset_y : Int)
    (canvas_width canvas_height overlay_width overlay_height : Int) : Int × Int :=
  let x : Int :=
    match position with
    | Position.topLeft | Position.centerLeft | Position.bottomLeft => 0
    | Position.topCenter | Position.center | Position.bottomCenter =>
        Int.tdiv (canvas_width - overlay_width) 2
    | Position.topRight | Position.centerRight | Position.bottomRight =>
        canvas_width - overlay_width
  let y : Int :=
    match position with
    | Position.topLeft | Position.topCenter | Position.topRight => 0
    | Position.centerLeft | Position.center | Position.centerRight =>
        Int.tdiv (canvas_height - overlay_height) 2
    | Position.bottomLeft | Position.bottomCenter | Position.bottomRight =>
        canvas_height - overlay_height
  (x + offset_x, y + offset_y)

/-- The four loop bounds computed by `blend` (editor.rs lines 135-165):
start/end of the visible overlay columns and rows, derived from the canvas
size `(w1, h1)`, the overlay size `(w2, h2)` and the resolved placement.
Returned as `(loop_start_x, loop_end_x, loop_start_y, loop_end_y)`. -/
def loopBounds (w1 h1 w2 h2 offset_x offset_y : Int) : Int × Int × Int × Int :=
  let loop_start_x : Int := 0
  let canvas_start_x := offset_x
  let loop_start_x := if canvas_start_x < 0 then loop_start_x + (0 - canvas_start_x) else loop_start_x
  let loop_end_x := w2
  let canvas_end_x := offset_x + w2
  let loop_end_x := if canvas_end_x > w1 then loop_end_x - (canvas_end_x - w1) else loop_end_x
  let loop_start_y : Int := 0
  let canvas_start_y := offset_y
  let loop_start_y := if canvas_start_y < 0 then loop_start_y + (0 - canvas_start_y) else loop_start_y
  let loop_end_y := h2
  let canvas_end_y := offset_y + h2
  let loop_end_y := if canvas_end_y > h1 then loop_end_y - (canvas_end_y - h1) else loop_end_y
  (loop_start_x, loop_end_x, loop_start_y, loop_end_y)

/-- The five blend modes dispatched by `blend`. -/
inductive BlendMode where
  | normal
  | difference
  | multiply
  | overlay
  | screen
deriving DecidableEq

/-- Modelled from the spec: the per-mode blend operations (`blend::normal`
etc.) live outside `src/`; per §6 each consumes
`(canvas, overlay, loop_start_y, loop_end_y, loop_start_x, loop_end_x, x, y,
opacity)` and returns a merged image.  The dispatcher is verified up to the
call it makes, recorded as this argument tuple (images omitted: the
dispatcher passes its own two image arguments unchanged). -/
structure BlendCall where
  mode : BlendMode
  loop_start_y : Int
  loop_end_y : Int
  loop_start_x : Int
  loop_end_x : Int
  offset_x : Int
  offset_y : Int
  opacity : Rat
deriving DecidableEq

/-- ASCII lowercasing of a mode string, mirroring `str::to_lowercase` on the
ASCII mode names this module compares against. -/
def strToLower (s : String) : String :=
  String.mk (s.data.map Char.toLower)

/-- The blend dispatcher, `editor::blend` (editor.rs lines 108-193): clamp
opacity to `[0, 1]`, resolve the placement of `image2` on `image1`, fail if
the overlay misses the canvas, otherwise derive the loop bounds, lowercase
the mode name and dispatch to the corresponding blend operation (recorded as
a `BlendCall`), failing on an unrecognized name. -/
def blend (image1 image2 : Image) (blend_mode : String) (opacity : Rat)
    (position : Position) (offset_x offset_y : Int) : Except RasterError BlendCall :=
  let opacity := if opacity > 1 then 1 else if opacity < 0 then 0 else opacity
  let xy := getXY position offset_x offset_y image1.width image1.height image2.width image2.height
  let offset_x := xy.1
  let offset_y := xy.2
  let w1 := image1.width
  let h1 := image1.height
  let w2 := image2.width
  let h2 := image2.height
  if w1 ≤ offset_x ∨ offset_x + w2 ≤ 0 ∨ h1 ≤ offset_y ∨ offset_y + h2 ≤ 0 then
    Except.error RasterError.blendingImageFallsOutsideCanvas
  else
    let bounds := loopBounds w1 h1 w2 h2 offset_x offset_y
    let loop_start_x := bounds.1
    let loop_end_x := bounds.2.1
    let loop_start_y := bounds.2.2.1
    let loop_end_y := bounds.2.2.2
    let bm := strToLower blend_mode
    if bm = "normal" then
      Except.ok ⟨BlendMode.normal, loop_start_y, loop_end_y, loop_start_x, loop_end_x, offset_x, offset_y, opacity⟩
    else if bm = "difference" then
      Except.ok ⟨BlendMode.difference, loop_start_y, loop_end_y, loop_start_x, loop_end_x, offset_x, offset_y, opacity⟩
    else if bm = "multiply" then
      Except.ok ⟨BlendMode.multiply, loop_start_y, loop_end_y, loop_start_x, loop_end_x, offset_x, offset_y, opacity⟩
    else if bm = "overlay" then
      Except.ok ⟨BlendMode.overlay, loop_start_y, loop_end_y, loop_start_x, loop_end_x, offset_x, offset_y, opacity⟩
    else if bm = "screen" then
      Except.ok ⟨BlendMode.screen, loop_start_y, loop_end_y, loop_start_x, loop_end_x, offset_x, offset_y, opacity⟩
    else
      Except.error (RasterError.invalidBlendMode bm)

/-- One row of a pixel-writing loop: for each `x` in the list, obtain a color
from `f` and store it at `(x, y)`, propagating failures (`try!`). -/
def rowLoop (f : Int → Int → Except RasterError Color) (y : Int) :
    Image → List Nat → Except RasterError Image
  | d, [] => Except.ok d
  | d, x :: xs =>
      match f (x : Int) y with
      | Except.error e => Except.error e
      | Except.ok c =>
          match d.set_pixel (x : Int) y c with
          | Except.error e => Except.error e
          | Except.ok d' => rowLoop f y d' xs

/-- The outer loop over rows: each `y` in the list runs a full row of
writes over columns `0..W`. -/
def gridLoop (f : Int → Int → Except RasterError Color) (W : Int) :
    Image → List Nat → Except RasterError Image
  | d, [] => Except.ok d
  | d, y :: ys =>
      match rowLoop f (y : Int) d (List.range W.toNat) with
      | Except.error e => Except.error e
      | Except.ok d' => gridLoop f W d' ys

/-- The doubly nested `for y in 0..H { for x in 0..W { ... } }` pixel-writing
loop shared by `crop` and `fill`. -/
def setGrid (f : Int → Int → Except RasterError Color) (W H : Int) (d : Image) :
    Except RasterError Image :=
  gridLoop f W d (List.range H.toNat)

/-- The geometry computed by `crop` (editor.rs lines 280-295): resolve the
placement of the crop rectangle on the image, clamp negative offsets to `0`,
and truncate the bottom-right corner `(width2, height2)` to the image.
Returns `(offset_x, offset_y, width2, height2)`. -/
def cropGeometry (src : Image) (crop_width crop_height : Int)
    (position : Position) (offset_x offset_y : Int) : Int × Int × Int × Int :=
  let xy := getXY position offset_x offset_y src.width src.height crop_width crop_height
  let offset_x := xy.1
  let offset_y := xy.2
  let offset_x := if offset_x < 0 then 0 else offset_x
  let offset_y := if offset_y < 0 then 0 else offset_y
  let height2 := offset_y + crop_height
  let height2 := if height2 > src.height then src.height else height2
  let width2 := offset_x + crop_width
  let width2 := if width2 > src.width then src.width else width2
  (offset_x, offset_y, width2, height2)

/-- The crop operator, `editor::crop` (editor.rs lines 277-310), as a state
transformer on the target image: compute the clamped geometry, allocate a
blank destination of the clamped size, copy each destination pixel from the
corresponding source pixel, and only then replace the target's `width`,
`height` and buffer with the destination's.  On a copy failure the error is
propagated before the target is touched, so the second component is the
unchanged source. -/
def crop (src : Image) (crop_width crop_height : Int) (position : Position)
    (offset_x offset_y : Int) : Except RasterError Unit × Image :=
  let g := cropGeometry src crop_width crop_height position offset_x offset_y
  let ox := g.1
  let oy := g.2.1
  let width2 := g.2.2.1
  let height2 := g.2.2.2
  let dest := Image.blank (width2 - ox) (height2 - oy)
  match setGrid
      (fun x y => (src.get_pixel (ox + x) (oy + y)).map fun p => Color.rgba p.r p.g p.b p.a)
      dest.width dest.height dest with
  | Except.ok dest' =>
      (Except.ok (), { width := dest'.width, height := dest'.height, pixels := dest'.pixels })
  | Except.error e => (Except.error e, src)

/-- The fill operator, `editor::fill` (editor.rs lines 331-340): write the
color to every pixel in row-major order, propagating any write failure. -/
def fill (src : Image) (color : Color) : Except RasterError Image :=
  setGrid (fun _ _ => Except.ok color) src.width src.height src

/-- Modelled from the spec: the external per-mode resize operations
(`transform::resize_*`, outside `src/`), abstracted as arbitrary state
transformers over the image (§4.6, §6).  `resize_exact_width` receives only
the target width and `resize_exact_height` only the target height, as in the
dispatcher's calls. -/
structure ResizeOps where
  resize_exact : Image → Int → Int → Except RasterError Unit × Image
  resize_exact_width : Image → Int → Except RasterError Unit × Image
  resize_exact_height : Image → Int → Except RasterError Unit × Image
  resize_fit : Image → Int → Int → Except RasterError Unit × Image
  resize_fill : Image → Int → Int → Except RasterError Unit × Image

/-- The resize dispatcher, `editor::resize` (editor.rs lines 471-480):
a pure routing table over the mode string, parameterized by the external
resize operations; an unknown mode fails with the supplied name and leaves
the image untouched. -/
def resize (ops : ResizeOps) (src : Image) (w h : Int) (mode : String) :
    Except RasterError Unit × Image :=
  match mode with
  | "exact" => ops.resize_exact src w h
  | "exact_width" => ops.resize_exact_width src w
  | "exact_height" => ops.resize_exact_height src h
  | "fit" => ops.resize_fit src w h
  | "fill" => ops.resize_fill src w h
  | _ => (Except.error (RasterError.invalidResizeMode mode), src)

theorem blank_width (w h : Int) : (Image.blank w h).width = w := rfl

theorem blank_height (w h : Int) : (Image.blank w h).height = h := rfl

theorem blank_pixels_length (w h : Int) :
    (Image.blank w h).pixels.length = h.toNat * w.toNat := by
  simp [Image.blank]

/-- Row-major index of an in-grid cell is below the grid size. -/
theorem grid_index_lt (Wn Hn x y : Nat) (hx : x < Wn) (hy : y < Hn) :
    y * Wn + x < Wn * Hn :=
  calc y * Wn + x < y * Wn + Wn := Nat.add_lt_add_left hx _
    _ = (y + 1) * Wn := by ring
    _ ≤ Hn * Wn := Nat.mul_le_mul_right Wn (Nat.succ_le_of_lt hy)
    _ = Wn * Hn := Nat.mul_comm _ _

/-- Row-major indexing is injective on in-grid cells. -/
theorem grid_index_inj (Wn x y x' y' : Nat) (hx : x < Wn) (hx' : x' < Wn)
    (h : y * Wn + x = y' * Wn + x') : y = y' ∧ x = x' := by
  have hW : 0 < Wn := Nat.pos_of_ne_zero fun hz => by omega
  have e1 : y * Wn + x = Wn * y + x := by ring
  have e2 : y' * Wn + x' = Wn * y' + x' := by ring
  rw [e1, e2] at h
  have d1 : (Wn * y + x) / Wn = y := by
    rw [Nat.mul_add_div hW, Nat.div_eq_of_lt hx, Nat.add_zero]
  have d2 : (Wn * y' + x') / Wn = y' := by
    rw [Nat.mul_add_div hW, Nat.div_eq_of_lt hx', Nat.add_zero]
  have hyy : y = y' := by rw [← d1, ← d2, h]
  subst hyy
  exact ⟨rfl, Nat.add_left_cancel h⟩

/-- Casting a row-major index built from naturals. -/
theorem grid_toNat (Wn x y : Nat) :
    ((y : Int) * (Wn : Int) + (x : Int)).toNat = y * Wn + x := by
  rw [← Nat.cast_mul, ← Nat.cast_add, Int.toNat_natCast]

/-- Writing an in-bounds pixel reduces to a positional list update. -/
theorem set_pixel_ok (d : Image) (Wn Hn x y : Nat) (c : Color)
    (hw : d.width = (Wn : Int)) (hh : d.height = (Hn : Int))
    (hx : x < Wn) (hy : y < Hn) :
    d.set_pixel (x : Int) (y : Int) c =
      Except.ok { d with pixels := d.pixels.set (y * Wn + x) c } := by
  have hcond : 0 ≤ (x : Int) ∧ (x : Int) < d.width ∧ 0 ≤ (y : Int) ∧ (y : Int) < d.height := by
    refine ⟨?_, ?_, ?_, ?_⟩ <;> omega
  unfold Image.set_pixel
  rw [if_pos hcond]
  have hidx : ((y : Int) * d.width + (x : Int)).toNat = y * Wn + x := by
    rw [hw, grid_toNat]
  rw [hidx]

/-- The inner column loop of `setGrid`, characterized on a contiguous block
of columns: it succeeds, preserves the buffer length, writes `g x y` at each
visited cell and leaves every other index unchanged. -/
theorem rowLoop_ok (f : Int → Int → Except RasterError Color) (g : Nat → Nat → Color)
    (Wn Hn y : Nat) (hy : y < Hn) :
    ∀ (k a : Nat) (d : Image), d.width = (Wn : Int) → d.height = (Hn : Int) →
      Wn * Hn ≤ d.pixels.length → a + k ≤ Wn →
      (∀ x : Nat, a ≤ x → x < a + k → f (x : Int) (y : Int) = Except.ok (g x y)) →
      ∃ p : List Color,
        rowLoop f (y : Int) d (List.range' a k) = Except.ok { d with pixels := p } ∧
          p.length = d.pixels.length ∧
          (∀ x : Nat, a ≤ x → x < a + k → p[y * Wn + x]? = some (g x y)) ∧
          (∀ j : Nat, (∀ x : Nat, a ≤ x → x < a + k → j ≠ y * Wn + x) →
            p[j]? = d.pixels[j]?) := by
  intro k
  induction k with
  | zero =>
      intro a d hw hh hlen hak hf
      exact ⟨d.pixels, rfl, rfl, fun x h1 h2 => by omega, fun j hj => rfl⟩
  | succ k ih =>
      intro a d hw hh hlen hak hf
      have hfa : f (a : Int) (y : Int) = Except.ok (g a y) := hf a (Nat.le_refl a) (by omega)
      have hset := set_pixel_ok d Wn Hn a y (g a y) hw hh (by omega) hy
      have hlt : y * Wn + a < d.pixels.length :=
        lt_of_lt_of_le (grid_index_lt Wn Hn a y (by omega) hy) hlen
      obtain ⟨p, hrun, hplen, hpset, hpun⟩ :=
        ih (a + 1) { d with pixels := d.pixels.set (y * Wn + a) (g a y) } hw hh
          (by simpa using hlen) (by omega)
          (fun x h1 h2 => hf x (by omega) (by omega))
      refine ⟨p, ?_, ?_, ?_, ?_⟩
      · rw [List.range'_succ]
        simp only [rowLoop, hfa, hset]
        exact hrun
      · rw [hplen]; exact List.length_set d.pixels _ _
      · intro x h1 h2
        rcases Nat.eq_or_lt_of_le h1 with heq | hlt2
        · rw [← heq]
          rw [hpun (y * Wn + a)
            (fun x' hx1 hx2 hcontra => by have := Nat.add_left_cancel hcontra; omega)]
          exact List.getElem?_set_eq_of_lt (g a y) hlt
        · exact hpset x (by omega) (by omega)
      · intro j hj
        rw [hpun j (fun x' h1 h2 => hj x' (by omega) (by omega))]
        exact List.getElem?_set_ne (Ne.symm (hj a (Nat.le_refl a) (by omega)))

/-- The outer row loop of `setGrid`, characterized on a contiguous block of
rows. -/
theorem gridLoop_ok (f : Int → Int → Except RasterError Color) (g : Nat → Nat → Color)
    (Wn Hn : Nat) :
    ∀ (m b : Nat) (d : Image), d.width = (Wn : Int) → d.height = (Hn : Int) →
      Wn * Hn ≤ d.pixels.length → b + m ≤ Hn →
      (∀ x y : Nat, x < Wn → b ≤ y → y < b + m → f (x : Int) (y : Int) = Except.ok (g x y)) →
      ∃ p : List Color,
        gridLoop f (Wn : Int) d (List.range' b m) = Except.ok { d with pixels := p } ∧
          p.length = d.pixels.length ∧
          (∀ x y : Nat, x < Wn → b ≤ y → y < b + m → p[y * Wn + x]? = some (g x y)) ∧
          (∀ j : Nat, (∀ x y : Nat, x < Wn → b ≤ y → y < b + m → j ≠ y * Wn + x) →
            p[j]? = d.pixels[j]?) := by
  intro m
  induction m with
  | zero =>
      intro b d hw hh hlen hbm hf
      exact ⟨d.pixels, rfl, rfl, fun x y hx h1 h2 => by omega, fun j hj => rfl⟩
  | succ m ih =>
      intro b d hw hh hlen hbm hf
      obtain ⟨q, hrow, hqlen, hqset, hqun⟩ :=
        rowLoop_ok f g Wn Hn b (by omega) Wn 0 d hw hh hlen (by omega)
          (fun x h1 h2 => hf x b (by omega) (by omega) (by omega))
      obtain ⟨p, hrun, hplen, hpset, hpun⟩ :=
        ih (b + 1) { d with pixels := q } hw hh
          (by simpa [hqlen] using hlen) (by omega)
          (fun x y hx h1 h2 => hf x y hx (by omega) (by omega))
      refine ⟨p, ?_, ?_, ?_, ?_⟩
      · rw [List.range'_succ]
        simp only [gridLoop, Int.toNat_natCast, List.range_eq_range', hrow]
        exact hrun
      · rw [hplen]; exact hqlen
      · intro x y hx h1 h2
        rcases Nat.eq_or_lt_of_le h1 with heq | hlt
        · rw [← heq]
          rw [hpun (b * Wn + x)
            (fun x' y' hx' hy1 hy2 hcontra => by
              obtain ⟨hby, _⟩ := grid_index_inj Wn x b x' y' hx hx' hcontra
              omega)]
          exact hqset x (Nat.zero_le x) (by omega)
        · exact hpset x y hx (by omega) (by omega)
      · intro j hj
        rw [hpun j (fun x' y' hx' hy1 hy2 => hj x' y' hx' (by omega) (by omega))]
        exact hqun j (fun x' h1 h2 => hj x' b (by omega) (Nat.le_refl b) (by omega))

/-- The full grid write, over all rows and columns. -/
theorem setGrid_ok (f : Int → Int → Except RasterError Color) (g : Nat → Nat → Color)
    (W H : Int) (Wn Hn : Nat) (hWn : W = (Wn : Int)) (hHn : H = (Hn : Int)) (d : Image)
    (hw : d.width = W) (hh : d.height = H) (hlen : Wn * Hn ≤ d.pixels.length)
    (hf : ∀ x y : Nat, x < Wn → y < Hn → f (x : Int) (y : Int) = Except.ok (g x y)) :
    ∃ p : List Color,
      setGrid f W H d = Except.ok { d with pixels := p } ∧
        p.length = d.pixels.length ∧
        (∀ x y : Nat, x < Wn → y < Hn → p[y * Wn + x]? = some (g x y)) ∧
        (∀ j : Nat, (∀ x y : Nat, x < Wn → y < Hn → j ≠ y * Wn + x) →
          p[j]? = d.pixels[j]?) := by
  subst hWn
  subst hHn
  unfold setGrid
  rw [Int.toNat_natCast, List.range_eq_range']
  obtain ⟨p, h1, h2, h3, h4⟩ :=
    gridLoop_ok f g Wn Hn Hn 0 d hw hh hlen (by omega)
      (fun x y hx h0 hy => hf x y hx (by omega))
  exact ⟨p, h1, h2, fun x y hx hy => h3 x y hx (Nat.zero_le y) (by omega),
    fun j hj => h4 j (fun x y hx h0 hy => hj x y hx (by omega))⟩

/-- With zero columns every row is a no-op and the grid loop leaves the
image untouched. -/
theorem gridLoop_no_cols (f : Int → Int → Except RasterError Color) (W : Int)
    (hW : W.toNat = 0) :
    ∀ (ys : List Nat) (d : Image), gridLoop f W d ys = Except.ok d := by
  intro ys
  induction ys with
  | nil => intro d; rfl
  | cons y ys ih =>
      intro d
      simp only [gridLoop, hW, List.range_zero, rowLoop]
      exact ih d

/-- A grid with no columns or no rows is written trivially. -/
theorem setGrid_degenerate (f : Int → Int → Except RasterError Color) (W H : Int)
    (d : Image) (h : W.toNat = 0 ∨ H.toNat = 0) : setGrid f W H d = Except.ok d := by
  unfold setGrid
  rcases h with h | h
  · exact gridLoop_no_cols f W h _ d
  · rw [h, List.range_zero]; rfl

/-- Reading an in-bounds pixel whose positional value is known. -/
theorem get_pixel_ok_of_getElem? (img : Image) (Wn : Nat) (hw : img.width = (Wn : Int))
    (x y : Int) (hx : 0 ≤ x) (hx2 : x < img.width) (hy : 0 ≤ y) (hy2 : y < img.height)
    (c : Color) (h : img.pixels[y.toNat * Wn + x.toNat]? = some c) :
    img.get_pixel x y = Except.ok c := by
  unfold Image.get_pixel
  rw [if_pos ⟨hx, hx2, hy, hy2⟩]
  have hidx : (y * img.width + x).toNat = y.toNat * Wn + x.toNat := by
    obtain ⟨xn, rfl⟩ := Int.eq_ofNat_of_zero_le hx
    obtain ⟨yn, rfl⟩ := Int.eq_ofNat_of_zero_le hy
    rw [hw, grid_toNat, Int.toNat_natCast, Int.toNat_natCast]
  rw [hidx, h]

/-- The positional value of an in-range cell, as a `pixelAt` read. -/
theorem pixelAt_getElem? (img : Image) (Wn : Nat) (hw : img.width = (Wn : Int))
    (x y : Nat) (h : y * Wn + x < img.pixels.length) :
    img.pixels[y * Wn + x]? = some (img.pixelAt (x : Int) (y : Int)) := by
  unfold Image.pixelAt
  have hidx : ((y : Int) * img.width + (x : Int)).toNat = y * Wn + x := by
    rw [hw, grid_toNat]
  rw [hidx, List.getElem?_eq_getElem h, List.getD_eq_getElem _ _ h]

/-- A well-formed image's buffer length in terms of its dimensions. -/
theorem WF_length (img : Image) (hwf : img.WF) :
    img.pixels.length = img.width.toNat * img.height.toNat := by
  obtain ⟨h1, h2, h3⟩ := hwf
  obtain ⟨wn, hw⟩ := Int.eq_ofNat_of_zero_le h1
  obtain ⟨hn, hh⟩ := Int.eq_ofNat_of_zero_le h2
  rw [h3, hw, hh, ← Nat.cast_mul, Int.toNat_natCast, Int.toNat_natCast, Int.toNat_natCast]

/-- Reading an in-bounds pixel of a well-formed image always succeeds, with
the positional value. -/
theorem get_pixel_eq_pixelAt (img : Image) (hwf : img.WF) (x y : Int)
    (hx : 0 ≤ x) (hx2 : x < img.width) (hy : 0 ≤ y) (hy2 : y < img.height) :
    img.get_pixel x y = Except.ok (img.pixelAt x y) := by
  have hw : img.width = (img.width.toNat : Int) := (Int.toNat_of_nonneg hwf.1).symm
  have hxW : x.toNat < img.width.toNat := by omega
  have hyH : y.toNat < img.height.toNat := by omega
  have hidx := grid_index_lt img.width.toNat img.height.toNat x.toNat y.toNat hxW hyH
  have h := pixelAt_getElem? img img.width.toNat hw x.toNat y.toNat
    (by rw [WF_length img hwf]; exact hidx)
  rw [Int.toNat_of_nonneg hx, Int.toNat_of_nonneg hy] at h
  exact get_pixel_ok_of_getElem? img img.width.toNat hw x y hx hx2 hy hy2 _ h

/-- Truncating halving of a non-negative integer stays within `[0, n]`. -/
theorem tdiv_two_of_nonneg (n : Int) (h : 0 ≤ n) :
    0 ≤ Int.tdiv n 2 ∧ Int.tdiv n 2 ≤ n := by
  rw [Int.tdiv_eq_ediv h (by norm_num)]
  omega

/-- Truncating halving of a non-positive integer is non-positive. -/
theorem tdiv_two_of_nonpos (n : Int) (h : n ≤ 0) : Int.tdiv n 2 ≤ 0 := by
  have h1 := (tdiv_two_of_nonneg (-n) (by omega)).1
  rw [Int.neg_tdiv] at h1
  omega

/-- The centered base offset stays at most the canvas dimension. -/
theorem tdiv_sub_le (W c : Int) (hc : 0 < c) (hW : 0 ≤ W) : Int.tdiv (W - c) 2 ≤ W := by
  rcases le_or_lt 0 (W - c) with h | h
  · have := tdiv_two_of_nonneg (W - c) h
    omega
  · have := tdiv_two_of_nonpos (W - c) (by omega)
    omega

/-- Base offsets resolved with zero pixel offsets are bounded by the canvas,
and are non-positive once the canvas is no larger than the overlay. -/
theorem getXY_zero_bounds (pos : Position) (cw ch W H : Int)
    (hcw : 0 < cw) (hch : 0 < ch) (hW : 0 ≤ W) (hH : 0 ≤ H) :
    (getXY pos 0 0 W H cw ch).1 ≤ W ∧ (getXY pos 0 0 W H cw ch).2 ≤ H ∧
      (W ≤ cw → (getXY pos 0 0 W H cw ch).1 ≤ 0) ∧
      (H ≤ ch → (getXY pos 0 0 W H cw ch).2 ≤ 0) := by
  cases pos <;> refine ⟨?_, ?_, ?_, ?_⟩ <;> dsimp only [getXY] <;>
    first
      | omega
      | (intro h; omega)
      | (have hd := tdiv_sub_le W cw hcw hW; omega)
      | (have hd := tdiv_sub_le H ch hch hH; omega)
      | (intro h; have := tdiv_two_of_nonpos (W - cw) (by omega); omega)
      | (intro h; have := tdiv_two_of_nonpos (H - ch) (by omega); omega)

/-- Basic bounds on the clamped crop geometry. -/
theorem cropGeometry_bounds (src : Image) (cw ch : Int) (pos : Position) (dx dy : Int) :
    0 ≤ (cropGeometry src cw ch pos dx dy).1 ∧
      0 ≤ (cropGeometry src cw ch pos dx dy).2.1 ∧
      (cropGeometry src cw ch pos dx dy).2.2.1 ≤ src.width ∧
      (cropGeometry src cw ch pos dx dy).2.2.1 ≤ (cropGeometry src cw ch pos dx dy).1 + cw ∧
      (cropGeometry src cw ch pos dx dy).2.2.2 ≤ src.height ∧
      (cropGeometry src cw ch pos dx dy).2.2.2 ≤ (cropGeometry src cw ch pos dx dy).2.1 + ch := by
  simp only [cropGeometry]
  split_ifs <;> refine ⟨?_, ?_, ?_, ?_, ?_, ?_⟩ <;> omega

/-- With zero pixel offsets the clamped crop geometry describes a
non-degenerate sub-rectangle of the source. -/
theorem cropGeometry_zero_nonneg (src : Image) (cw ch : Int) (pos : Position)
    (hcw : 0 < cw) (hch : 0 < ch) (hW : 0 ≤ src.width) (hH : 0 ≤ src.height) :
    (cropGeometry src cw ch pos 0 0).1 ≤ (cropGeometry src cw ch pos 0 0).2.2.1 ∧
      (cropGeometry src cw ch pos 0 0).2.1 ≤ (cropGeometry src cw ch pos 0 0).2.2.2 := by
  obtain ⟨h1, h2, h3, h4⟩ := getXY_zero_bounds pos cw ch src.width src.height hcw hch hW hH
  simp only [cropGeometry]
  split_ifs <;> refine ⟨?_, ?_⟩ <;> omega

/-- On a canvas no larger than the crop rectangle, zero-offset crop geometry
is the identity region. -/
theorem cropGeometry_self (r : Image) (cw ch : Int) (pos : Position)
    (hcw : 0 < cw) (hch : 0 < ch) (hW : 0 ≤ r.width) (hH : 0 ≤ r.height)
    (hWle : r.width ≤ cw) (hHle : r.height ≤ ch) :
    cropGeometry r cw ch pos 0 0 = (0, 0, r.width, r.height) := by
  obtain ⟨h1, h2, h3, h4⟩ := getXY_zero_bounds pos cw ch r.width r.height hcw hch hW hH
  have hx0 := h3 hWle
  have hy0 := h4 hHle
  simp only [cropGeometry]
  split_ifs <;> simp [Prod.ext_iff] <;> omega

/-- Full characterization of `crop` on a well-formed source: it succeeds,
the result has the clamped dimensions, its buffer has the matching grid
size, and each cell holds the corresponding source pixel. -/
theorem crop_spec (src : Image) (cw ch : Int) (pos : Position) (dx dy : Int)
    (ox oy w2 h2 : Int) (hg : cropGeometry src cw ch pos dx dy = (ox, oy, w2, h2))
    (hwf : src.WF) :
    (crop src cw ch pos dx dy).1 = Except.ok () ∧
      (crop src cw ch pos dx dy).2.width = w2 - ox ∧
      (crop src cw ch pos dx dy).2.height = h2 - oy ∧
      (crop src cw ch pos dx dy).2.pixels.length = (h2 - oy).toNat * (w2 - ox).toNat ∧
      (∀ x y : Nat, x < (w2 - ox).toNat → y < (h2 - oy).toNat →
        (crop src cw ch pos dx dy).2.pixels[y * (w2 - ox).toNat + x]? =
          some (src.pixelAt (ox + (x : Int)) (oy + (y : Int)))) := by
  have hb := cropGeometry_bounds src cw ch pos dx dy
  rw [hg] at hb
  dsimp only at hb
  obtain ⟨hox, hoy, hw2, hw2b, hh2, hh2b⟩ := hb
  by_cases hdeg : 0 ≤ w2 - ox ∧ 0 ≤ h2 - oy
  · obtain ⟨hdw, hdh⟩ := hdeg
    have hWn : w2 - ox = ((w2 - ox).toNat : Int) := (Int.toNat_of_nonneg hdw).symm
    have hHn : h2 - oy = ((h2 - oy).toNat : Int) := (Int.toNat_of_nonneg hdh).symm
    obtain ⟨p, hrun, hplen, hpset, hpun⟩ :=
      setGrid_ok
        (fun x y => (src.get_pixel (ox + x) (oy + y)).map fun pc => Color.rgba pc.r pc.g pc.b pc.a)
        (fun x y => src.pixelAt (ox + (x : Int)) (oy + (y : Int)))
        (w2 - ox) (h2 - oy) (w2 - ox).toNat (h2 - oy).toNat hWn hHn
        (Image.blank (w2 - ox) (h2 - oy)) rfl rfl
        (by rw [blank_pixels_length]; exact Nat.le_of_eq (Nat.mul_comm _ _))
        (fun x y hx hy => by
          dsimp only
          rw [get_pixel_eq_pixelAt src hwf (ox + (x : Int)) (oy + (y : Int))
            (by omega) (by omega) (by omega) (by omega)]
          rfl)
    simp only [crop, hg, blank_width, blank_height]
    rw [hrun]
    refine ⟨rfl, rfl, rfl, ?_, ?_⟩
    · show p.length = (h2 - oy).toNat * (w2 - ox).toNat
      rw [hplen, blank_pixels_length]
    · intro x y hx hy
      exact hpset x y hx hy
  · have hz : (w2 - ox).toNat = 0 ∨ (h2 - oy).toNat = 0 := by omega
    simp only [crop, hg, blank_width, blank_height]
    rw [setGrid_degenerate _ _ _ _ hz]
    refine ⟨rfl, rfl, rfl, ?_, ?_⟩
    · show (Image.blank (w2 - ox) (h2 - oy)).pixels.length = (h2 - oy).toNat * (w2 - ox).toNat
      rw [blank_pixels_length]
    · intro x y hx hy
      omega

/-- Decomposition of a row-major index into its cell coordinates. -/
theorem grid_decompose (Wn Hn n : Nat) (h : n < Wn * Hn) :
    n % Wn < Wn ∧ n / Wn < Hn ∧ (n / Wn) * Wn + n % Wn = n := by
  have hW : 0 < Wn := by
    rcases Nat.eq_zero_or_pos Wn with hz | hp
    · subst hz; simp at h
    · exact hp
  refine ⟨Nat.mod_lt n hW, ?_, ?_⟩
  · rw [Nat.div_lt_iff_lt_mul hW]
    calc n < Wn * Hn := h
      _ = Hn * Wn := Nat.mul_comm _ _
  · have hdm := Nat.div_add_mod n Wn
    calc (n / Wn) * Wn + n % Wn = Wn * (n / Wn) + n % Wn := by ring
      _ = n := hdm

/-- Two grid-sized buffers agreeing on every cell are equal. -/
theorem grid_list_ext (p q : List Color) (Wn Hn : Nat)
    (hp : p.length = Wn * Hn) (hq : q.length = Wn * Hn)
    (h : ∀ x y : Nat, x < Wn → y < Hn → p[y * Wn + x]? = q[y * Wn + x]?) : p = q := by
  apply List.ext_getElem?
  intro n
  by_cases hn : n < Wn * Hn
  · obtain ⟨hx, hy, heq⟩ := grid_decompose Wn Hn n hn
    rw [← heq]
    exact h _ _ hx hy
  · rw [List.getElem?_eq_none (by omega), List.getElem?_eq_none (by omega)]

/-- C4: on a well-formed image with positive crop dimensions, `crop` always
succeeds (no outside-canvas failure and the defensive pixel-error branch is
never taken); writing `(ox, oy, x2, y2)` for the clamped geometry, the image
is replaced by a buffer of dimensions `(x2 - ox, y2 - oy)` whose pixel
`(i, j)` is exactly the source pixel `(ox + i, oy + j)`, all four channels
preserved. -/
theorem crop_correct (src : Image) (cw ch : Int) (pos : Position) (dx dy : Int)
    (hwf : src.WF) (hcw : 0 < cw) (hch : 0 < ch) :
    (crop src cw ch pos dx dy).1 = Except.ok () ∧
      (crop src cw ch pos dx dy).2.width =
        (cropGeometry src cw ch pos dx dy).2.2.1 - (cropGeometry src cw ch pos dx dy).1 ∧
      (crop src cw ch pos dx dy).2.height =
        (cropGeometry src cw ch pos dx dy).2.2.2 - (cropGeometry src cw ch pos dx dy).2.1 ∧
      ∀ i j : Int, 0 ≤ i →
        i < (cropGeometry src cw ch pos dx dy).2.2.1 - (cropGeometry src cw ch pos dx dy).1 →
        0 ≤ j →
        j < (cropGeometry src cw ch pos dx dy).2.2.2 - (cropGeometry src cw ch pos dx dy).2.1 →
        (crop src cw ch pos dx dy).2.get_pixel i j =
          src.get_pixel ((cropGeometry src cw ch pos dx dy).1 + i)
            ((cropGeometry src cw ch pos dx dy).2.1 + j) := by
  obtain ⟨ox, oy, w2, h2, hg⟩ :
      ∃ a b c d, cropGeometry src cw ch pos dx dy = (a, b, c, d) := ⟨_, _, _, _, rfl⟩
  rw [hg]
  dsimp only
  have hb := cropGeometry_bounds src cw ch pos dx dy
  rw [hg] at hb
  dsimp only at hb
  obtain ⟨hox, hoy, hw2, hw2b, hh2, hh2b⟩ := hb
  obtain ⟨hrun, hrw, hrh, hrlen, hrset⟩ := crop_spec src cw ch pos dx dy ox oy w2 h2 hg hwf
  refine ⟨hrun, hrw, hrh, ?_⟩
  intro i j hi hiw hj hjh
  have hWpos : 0 ≤ w2 - ox := by omega
  have hHpos : 0 ≤ h2 - oy := by omega
  have hxn : i.toNat < (w2 - ox).toNat := by omega
  have hyn : j.toNat < (h2 - oy).toNat := by omega
  have hcell := hrset i.toNat j.toNat hxn hyn
  rw [Int.toNat_of_nonneg hi, Int.toNat_of_nonneg hj] at hcell
  rw [get_pixel_ok_of_getElem? (crop src cw ch pos dx dy).2 (w2 - ox).toNat
      (by rw [hrw]; exact (Int.toNat_of_nonneg hWpos).symm) i j hi
      (by rw [hrw]; omega) hj (by rw [hrh]; omega) _ hcell]
  rw [get_pixel_eq_pixelAt src hwf (ox + i) (oy + j)
      (by omega) (by omega) (by omega) (by omega)]

/-- Witness for C4 at a concrete input. -/
theorem crop_correct_witness :
    (crop (Image.blank 4 4) 2 2 Position.topLeft 1 1).1 = Except.ok () ∧
      (crop (Image.blank 4 4) 2 2 Position.topLeft 1 1).2.get_pixel 0 0 =
        (Image.blank 4 4).get_pixel
          ((cropGeometry (Image.blank 4 4) 2 2 Position.topLeft 1 1).1 + 0)
          ((cropGeometry (Image.blank 4 4) 2 2 Position.topLeft 1 1).2.1 + 0) :=
  ⟨(crop_correct (Image.blank 4 4) 2 2 Position.topLeft 1 1 (by decide)
      (by norm_num) (by norm_num)).1,
   (crop_correct (Image.blank 4 4) 2 2 Position.topLeft 1 1 (by decide)
      (by norm_num) (by norm_num)).2.2.2 0 0 (by norm_num) (by decide) (by norm_num) (by decide)⟩

/-- C8: `crop` is atomic on failure — whenever it returns an error, the
target image is exactly as it was before the call, because all pixel copies
go into a fresh destination buffer and the source's fields are only replaced
after the copy has succeeded. -/
theorem crop_atomic (src : Image) (cw ch : Int) (pos : Position) (dx dy : Int)
    (e : RasterError) (h : (crop src cw ch pos dx dy).1 = Except.error e) :
    (crop src cw ch pos dx dy).2 = src := by
  simp only [crop] at h ⊢
  split at h
  · exact absurd h (by simp)
  · rfl

/-- Witness for C8: a malformed source (declared 2×2 with an empty buffer)
makes the copy loop fail, and the image is returned unchanged. -/
theorem crop_atomic_witness :
    (crop (⟨2, 2, []⟩ : Image) 2 2 Position.topLeft 0 0).2 = (⟨2, 2, []⟩ : Image) :=
  crop_atomic (⟨2, 2, []⟩ : Image) 2 2 Position.topLeft 0 0
    (RasterError.pixelOutOfBounds 0 0) (by decide)

/-- C7: on a well-formed image, `fill` always succeeds, keeps the
dimensions, and replaces the buffer by the fill color at every pixel; in
particular every in-bounds read afterwards returns the fill color exactly,
alpha included. -/
theorem fill_correct (src : Image) (color : Color) (hwf : src.WF) :
    fill src color =
      Except.ok { width := src.width, height := src.height,
                  pixels := List.replicate src.pixels.length color } ∧
    ∀ x y : Int, 0 ≤ x → x < src.width → 0 ≤ y → y < src.height →
      ({ width := src.width, height := src.height,
         pixels := List.replicate src.pixels.length color } : Image).get_pixel x y =
        Except.ok color := by
  have hWcast : src.width = (src.width.toNat : Int) := (Int.toNat_of_nonneg hwf.1).symm
  have hHcast : src.height = (src.height.toNat : Int) := (Int.toNat_of_nonneg hwf.2.1).symm
  have hlen := WF_length src hwf
  obtain ⟨p, hrun, hplen, hpset, hpun⟩ :=
    setGrid_ok (fun _ _ => Except.ok color) (fun _ _ => color)
      src.width src.height src.width.toNat src.height.toNat hWcast hHcast src rfl rfl
      (le_of_eq hlen.symm) (fun _ _ _ _ => rfl)
  have hpixeq : p = List.replicate src.pixels.length color := by
    apply grid_list_ext p _ src.width.toNat src.height.toNat
    · rw [hplen]; exact hlen
    · rw [List.length_replicate]; exact hlen
    · intro x y hx hy
      have hidx := grid_index_lt src.width.toNat src.height.toNat x y hx hy
      rw [hpset x y hx hy, List.getElem?_replicate,
        if_pos (show y * src.width.toNat + x < src.pixels.length by omega)]
  constructor
  · unfold fill
    rw [hrun, hpixeq]
  · intro x y hx hx2 hy hy2
    apply get_pixel_ok_of_getElem?
      ({ width := src.width, height := src.height,
         pixels := List.replicate src.pixels.length color } : Image)
      src.width.toNat hWcast x y hx hx2 hy hy2
    show (List.replicate src.pixels.length color)[y.toNat * src.width.toNat + x.toNat]? =
      some color
    have hxn : x.toNat < src.width.toNat := by omega
    have hyn : y.toNat < src.height.toNat := by omega
    have hidx := grid_index_lt src.width.toNat src.height.toNat x.toNat y.toNat hxn hyn
    rw [List.getElem?_replicate,
      if_pos (show y.toNat * src.width.toNat + x.toNat < src.pixels.length by omega)]

/-- Witness for C7 at a concrete input. -/
theorem fill_correct_witness :
    fill (Image.blank 2 2) ⟨9, 8, 7, 6⟩ =
      Except.ok { width := (Image.blank 2 2).width, height := (Image.blank 2 2).height,
                  pixels := List.replicate (Image.blank 2 2).pixels.length
                    (⟨9, 8, 7, 6⟩ : Color) } ∧
    ({ width := (Image.blank 2 2).width, height := (Image.blank 2 2).height,
       pixels := List.replicate (Image.blank 2 2).pixels.length (⟨9, 8, 7, 6⟩ : Color) } :
        Image).get_pixel 1 1 = Except.ok ⟨9, 8, 7, 6⟩ :=
  ⟨(fill_correct (Image.blank 2 2) ⟨9, 8, 7, 6⟩ (by decide)).1,
   (fill_correct (Image.blank 2 2) ⟨9, 8, 7, 6⟩ (by decide)).2 1 1
     (by norm_num) (by decide) (by norm_num) (by decide)⟩

/-- C6 counterexample: cropping a 10×10 blank image to 4×4 at `top-left`
with offsets `(8, 0)` yields a 2-wide image; cropping that result again with
the same arguments yields width `-6`, not the same width — crop is not
idempotent for arbitrary offsets. -/
theorem crop_idempotent_counterexample :
    (crop (Image.blank 10 10) 4 4 Position.topLeft 8 0).2.width = 2 ∧
    (crop (crop (Image.blank 10 10) 4 4 Position.topLeft 8 0).2 4 4
        Position.topLeft 8 0).2.width = -6 := by
  decide

/-- C6 (amended): against a well-formed image, positive crop dimensions and
zero offsets, crop is idempotent for every anchor: both crops succeed and
re-cropping with the same arguments returns the first result unchanged
(width, height and byte content). -/
theorem crop_idempotent_zero_offset (src : Image) (cw ch : Int) (pos : Position)
    (hwf : src.WF) (hcw : 0 < cw) (hch : 0 < ch) :
    (crop src cw ch pos 0 0).1 = Except.ok () ∧
      (crop (crop src cw ch pos 0 0).2 cw ch pos 0 0).1 = Except.ok () ∧
      (crop (crop src cw ch pos 0 0).2 cw ch pos 0 0).2 = (crop src cw ch pos 0 0).2 := by
  obtain ⟨ox, oy, w2, h2, hg⟩ :
      ∃ a b c d, cropGeometry src cw ch pos 0 0 = (a, b, c, d) := ⟨_, _, _, _, rfl⟩
  have hb := cropGeometry_bounds src cw ch pos 0 0
  rw [hg] at hb
  dsimp only at hb
  obtain ⟨hox, hoy, hw2, hw2b, hh2, hh2b⟩ := hb
  have hnn := cropGeometry_zero_nonneg src cw ch pos hcw hch hwf.1 hwf.2.1
  rw [hg] at hnn
  dsimp only at hnn
  obtain ⟨hWnn, hHnn⟩ := hnn
  obtain ⟨h1run, h1w, h1h, h1len, h1set⟩ := crop_spec src cw ch pos 0 0 ox oy w2 h2 hg hwf
  have hWcast : w2 - ox = ((w2 - ox).toNat : Int) := (Int.toNat_of_nonneg (by omega)).symm
  have hHcast : h2 - oy = ((h2 - oy).toNat : Int) := (Int.toNat_of_nonneg (by omega)).symm
  have hrW : 0 ≤ (crop src cw ch pos 0 0).2.width := by rw [h1w]; omega
  have hrH : 0 ≤ (crop src cw ch pos 0 0).2.height := by rw [h1h]; omega
  have hrWle : (crop src cw ch pos 0 0).2.width ≤ cw := by rw [h1w]; omega
  have hrHle : (crop src cw ch pos 0 0).2.height ≤ ch := by rw [h1h]; omega
  have hmul : ((w2 - ox) * (h2 - oy)).toNat = (w2 - ox).toNat * (h2 - oy).toNat := by
    conv_lhs => rw [hWcast, hHcast]
    rw [← Nat.cast_mul, Int.toNat_natCast]
  have hrwf : (crop src cw ch pos 0 0).2.WF := by
    refine ⟨hrW, hrH, ?_⟩
    rw [h1len, h1w, h1h, hmul]
    exact Nat.mul_comm _ _
  have hg2 : cropGeometry (crop src cw ch pos 0 0).2 cw ch pos 0 0 =
      (0, 0, (crop src cw ch pos 0 0).2.width, (crop src cw ch pos 0 0).2.height) :=
    cropGeometry_self _ cw ch pos hcw hch hrW hrH hrWle hrHle
  obtain ⟨h2run, h2w, h2h, h2len, h2set⟩ :=
    crop_spec (crop src cw ch pos 0 0).2 cw ch pos 0 0 0 0
      (crop src cw ch pos 0 0).2.width (crop src cw ch pos 0 0).2.height hg2 hrwf
  refine ⟨h1run, h2run, ?_⟩
  have hrw' : (crop src cw ch pos 0 0).2.width - 0 = w2 - ox := by rw [h1w]; ring
  have hrh' : (crop src cw ch pos 0 0).2.height - 0 = h2 - oy := by rw [h1h]; ring
  refine Image.ext ?_ ?_ ?_
  · rw [h2w]; omega
  · rw [h2h]; omega
  · apply grid_list_ext _ _ (w2 - ox).toNat (h2 - oy).toNat
    · rw [h2len, hrw', hrh']
      exact Nat.mul_comm _ _
    · rw [h1len]
      exact Nat.mul_comm _ _
    · intro x y hx hy
      have hx' : x < ((crop src cw ch pos 0 0).2.width - 0).toNat := by rw [hrw']; exact hx
      have hy' : y < ((crop src cw ch pos 0 0).2.height - 0).toNat := by rw [hrh']; exact hy
      have hcell := h2set x y hx' hy'
      rw [hrw'] at hcell
      simp only [zero_add] at hcell
      rw [hcell]
      have hrWn : (crop src cw ch pos 0 0).2.width = ((w2 - ox).toNat : Int) := by
        rw [h1w]; exact hWcast
      have hidx : y * (w2 - ox).toNat + x < (crop src cw ch pos 0 0).2.pixels.length := by
        have h1 := grid_index_lt (w2 - ox).toNat (h2 - oy).toNat x y hx hy
        have hcomm : (h2 - oy).toNat * (w2 - ox).toNat =
            (w2 - ox).toNat * (h2 - oy).toNat := Nat.mul_comm _ _
        rw [h1len]
        omega
      rw [pixelAt_getElem? _ (w2 - ox).toNat hrWn x y hidx]

/-- Witness for the amended C6 at a concrete input. -/
theorem crop_idempotent_zero_offset_witness :
    (crop (Image.blank 6 6) 4 4 Position.center 0 0).1 = Except.ok () ∧
      (crop (crop (Image.blank 6 6) 4 4 Position.center 0 0).2 4 4 Position.center 0 0).1 =
        Except.ok () ∧
      (crop (crop (Image.blank 6 6) 4 4 Position.center 0 0).2 4 4 Position.center 0 0).2 =
        (crop (Image.blank 6 6) 4 4 Position.center 0 0).2 :=
  crop_idempotent_zero_offset (Image.blank 6 6) 4 4 Position.center (by decide)
    (by norm_num) (by norm_num)

/-- The mode names accepted by the blend dispatcher. -/
def blendModeNames : List String :=
  [ "normal", "difference", "multiply", "overlay", "screen" ]

/-- The mode names accepted by the resize dispatcher. -/
def resizeModeNames : List String :=
  [ "exact", "exact_width", "exact_height", "fit", "fill" ]

/-- Helper: when the resolved placement fails the overlap test, `blend`
returns the outside-canvas error, whatever the mode string. -/
theorem blend_of_not_overlap (image1 image2 : Image) (mode : String) (opacity : Rat)
    (position : Position) (dx dy : Int)
    (h : ¬((getXY position dx dy image1.width image1.height image2.width image2.height).1 < image1.width ∧
        0 < (getXY position dx dy image1.width image1.height image2.width image2.height).1 + image2.width ∧
        (getXY position dx dy image1.width image1.height image2.width image2.height).2 < image1.height ∧
        0 < (getXY position dx dy image1.width image1.height image2.width image2.height).2 + image2.height)) :
    blend image1 image2 mode opacity position dx dy =
      Except.error RasterError.blendingImageFallsOutsideCanvas := by
  have hc : image1.width ≤ (getXY position dx dy image1.width image1.height image2.width image2.height).1 ∨
      (getXY position dx dy image1.width image1.height image2.width image2.height).1 + image2.width ≤ 0 ∨
      image1.height ≤ (getXY position dx dy image1.width image1.height image2.width image2.height).2 ∨
      (getXY position dx dy image1.width image1.height image2.width image2.height).2 + image2.height ≤ 0 := by
    omega
  simp only [blend]
  rw [if_pos hc]

/-- C1: the four loop bounds computed by `blend` for an overlapping overlay
are exactly `max(0, -x)`, `w2 - max(0, (x + w2) - w1)`, `max(0, -y)`,
`h2 - max(0, (y + h2) - h1)`; at `x = y = -5`, canvas 100×100, overlay 20×20
they are `(5, 20, 5, 20)` (and that is what is passed to the blend
operation); for a placement fully inside the canvas they are
`(0, w2, 0, h2)`. -/
theorem blend_clip_bounds :
    (∀ w1 h1 w2 h2 x y : Int,
        x < w1 → 0 < x + w2 → y < h1 → 0 < y + h2 →
        loopBounds w1 h1 w2 h2 x y =
          (max 0 (-x), w2 - max 0 (x + w2 - w1), max 0 (-y), h2 - max 0 (y + h2 - h1))) ∧
    loopBounds 100 100 20 20 (-5) (-5) = (5, 20, 5, 20) ∧
    blend (Image.blank 100 100) (Image.blank 20 20) ("normal") 1 Position.topLeft (-5) (-5) =
      Except.ok ⟨BlendMode.normal, 5, 20, 5, 20, -5, -5, 1⟩ ∧
    (∀ w1 h1 w2 h2 x y : Int,
        0 ≤ x → x + w2 ≤ w1 → 0 ≤ y → y + h2 ≤ h1 →
        loopBounds w1 h1 w2 h2 x y = (0, w2, 0, h2)) := by
  refine ⟨?_, by decide, by decide, ?_⟩ <;>
    · intro w1 h1 w2 h2 x y _ _ _ _
      simp only [loopBounds]
      split_ifs <;> simp [Prod.ext_iff] <;> omega

/-- Witness for C1 at concrete inputs. -/
theorem blend_clip_bounds_witness :
    loopBounds 100 100 30 30 (-5) (-5) =
      (max 0 (-(-5)), 30 - max 0 ((-5) + 30 - 100), max 0 (-(-5)), 30 - max 0 ((-5) + 30 - 100)) ∧
    loopBounds 100 100 20 20 5 5 = (0, 20, 0, 20) :=
  ⟨blend_clip_bounds.1 100 100 30 30 (-5) (-5) (by norm_num) (by norm_num) (by norm_num) (by norm_num),
   blend_clip_bounds.2.2.2 100 100 20 20 5 5 (by norm_num) (by norm_num) (by norm_num) (by norm_num)⟩

/-- C2: `blend` fails with the outside-canvas error iff the resolved
placement fails the overlap test
`x < w1 ∧ 0 < x + w2 ∧ y < h1 ∧ 0 < y + h2`; a fully off-canvas overlay is
a hard error, never a success. -/
theorem blend_outside_canvas_iff (image1 image2 : Image) (mode : String) (opacity : Rat)
    (position : Position) (dx dy : Int) :
    blend image1 image2 mode opacity position dx dy =
        Except.error RasterError.blendingImageFallsOutsideCanvas ↔
      ¬((getXY position dx dy image1.width image1.height image2.width image2.height).1 < image1.width ∧
        0 < (getXY position dx dy image1.width image1.height image2.width image2.height).1 + image2.width ∧
        (getXY position dx dy image1.width image1.height image2.width image2.height).2 < image1.height ∧
        0 < (getXY position dx dy image1.width image1.height image2.width image2.height).2 + image2.height) := by
  simp only [blend]
  split_ifs <;> first
    | exact iff_of_true rfl (by omega)
    | exact iff_of_false (by simp) (by omega)

/-- C3: for non-negative canvas and overlay dimensions and any placement
passing the overlap test, the computed clip region satisfies
`0 ≤ loop_start_x ≤ loop_end_x ≤ w2` and `0 ≤ loop_start_y ≤ loop_end_y ≤ h2`;
in the non-overlap case `blend` produces no clip region but the distinct
outside-canvas error state. -/
theorem clip_region_invariant :
    (∀ w1 h1 w2 h2 x y : Int, 0 ≤ w1 → 0 ≤ h1 → 0 ≤ w2 → 0 ≤ h2 →
        x < w1 → 0 < x + w2 → y < h1 → 0 < y + h2 →
        0 ≤ (loopBounds w1 h1 w2 h2 x y).1 ∧
        (loopBounds w1 h1 w2 h2 x y).1 ≤ (loopBounds w1 h1 w2 h2 x y).2.1 ∧
        (loopBounds w1 h1 w2 h2 x y).2.1 ≤ w2 ∧
        0 ≤ (loopBounds w1 h1 w2 h2 x y).2.2.1 ∧
        (loopBounds w1 h1 w2 h2 x y).2.2.1 ≤ (loopBounds w1 h1 w2 h2 x y).2.2.2 ∧
        (loopBounds w1 h1 w2 h2 x y).2.2.2 ≤ h2) ∧
    (∀ (image1 image2 : Image) (mode : String) (opacity : Rat) (position : Position) (dx dy : Int),
        ¬((getXY position dx dy image1.width image1.height image2.width image2.height).1 < image1.width ∧
          0 < (getXY position dx dy image1.width image1.height image2.width image2.height).1 + image2.width ∧
          (getXY position dx dy image1.width image1.height image2.width image2.height).2 < image1.height ∧
          0 < (getXY position dx dy image1.width image1.height image2.width image2.height).2 + image2.height) →
        blend image1 image2 mode opacity position dx dy =
          Except.error RasterError.blendingImageFallsOutsideCanvas) := by
  constructor
  · intro w1 h1 w2 h2 x y _ _ _ _ _ _ _ _
    simp only [loopBounds]
    split_ifs <;> simp_all <;> omega
  · exact blend_of_not_overlap

/-- Witness for C3 at concrete inputs. -/
theorem clip_region_invariant_witness :
    (0 ≤ (loopBounds 100 100 30 30 (-5) 90).1 ∧
      (loopBounds 100 100 30 30 (-5) 90).1 ≤ (loopBounds 100 100 30 30 (-5) 90).2.1 ∧
      (loopBounds 100 100 30 30 (-5) 90).2.1 ≤ 30 ∧
      0 ≤ (loopBounds 100 100 30 30 (-5) 90).2.2.1 ∧
      (loopBounds 100 100 30 30 (-5) 90).2.2.1 ≤ (loopBounds 100 100 30 30 (-5) 90).2.2.2 ∧
      (loopBounds 100 100 30 30 (-5) 90).2.2.2 ≤ 30) ∧
    blend (Image.blank 50 50) (Image.blank 20 20) ("normal") 1 Position.topLeft 60 0 =
      Except.error RasterError.blendingImageFallsOutsideCanvas :=
  ⟨clip_region_invariant.1 100 100 30 30 (-5) 90 (by norm_num) (by norm_num) (by norm_num)
      (by norm_num) (by norm_num) (by norm_num) (by norm_num) (by norm_num),
   clip_region_invariant.2 (Image.blank 50 50) (Image.blank 20 20) ("normal") 1
      Position.topLeft 60 0 (by decide)⟩

/-- C5 counterexample: with the unknown mode name `"FOO"` (and an
overlapping placement), `blend` fails with `InvalidBlendMode("foo")` — the
lowercased name — not with `InvalidBlendMode("FOO")` carrying the supplied
name. -/
theorem blend_mode_error_name_counterexample :
    blend (Image.blank 100 100) (Image.blank 20 20) ("FOO") 1 Position.topLeft 0 0 =
      Except.error (RasterError.invalidBlendMode ("foo")) ∧
    blend (Image.blank 100 100) (Image.blank 20 20) ("FOO") 1 Position.topLeft 0 0 ≠
      Except.error (RasterError.invalidBlendMode ("FOO")) := by
  decide

/-- C5 (amended): `blend` matches the mode name case-insensitively against
the fixed set and two mode strings with the same lowercasing behave
identically; when the overlay overlaps the canvas, a mode name whose
lowercasing is not in the set fails with `InvalidBlendMode` carrying the
lowercased mode name. -/
theorem blend_mode_case_insensitive :
    (∀ (image1 image2 : Image) (m1 m2 : String) (opacity : Rat) (position : Position) (dx dy : Int),
        strToLower m1 = strToLower m2 →
        blend image1 image2 m1 opacity position dx dy =
          blend image1 image2 m2 opacity position dx dy) ∧
    (∀ (image1 image2 : Image) (m : String) (opacity : Rat) (position : Position) (dx dy : Int),
        ((getXY position dx dy image1.width image1.height image2.width image2.height).1 < image1.width ∧
          0 < (getXY position dx dy image1.width image1.height image2.width image2.height).1 + image2.width ∧
          (getXY position dx dy image1.width image1.height image2.width image2.height).2 < image1.height ∧
          0 < (getXY position dx dy image1.width image1.height image2.width image2.height).2 + image2.height) →
        strToLower m ∉ blendModeNames →
        blend image1 image2 m opacity position dx dy =
          Except.error (RasterError.invalidBlendMode (strToLower m))) := by
  constructor
  · intro image1 image2 m1 m2 opacity position dx dy h
    simp only [blend]
    rw [h]
  · intro image1 image2 m opacity position dx dy hov hmem
    simp only [blendModeNames, List.mem_cons, List.not_mem_nil, or_false] at hmem
    push_neg at hmem
    obtain ⟨h1, h2, h3, h4, h5⟩ := hmem
    simp only [blend]
    rw [if_neg (by omega), if_neg h1, if_neg h2, if_neg h3, if_neg h4, if_neg h5]

/-- Witness for C5 at concrete inputs. -/
theorem blend_mode_case_insensitive_witness :
    blend (Image.blank 100 100) (Image.blank 20 20) ("NORMAL") 1 Position.topLeft 0 0 =
      blend (Image.blank 100 100) (Image.blank 20 20) ("normal") 1 Position.topLeft 0 0 ∧
    blend (Image.blank 100 100) (Image.blank 20 20) ("bogus") 1 Position.topLeft 0 0 =
      Except.error (RasterError.invalidBlendMode (strToLower ("bogus"))) :=
  ⟨blend_mode_case_insensitive.1 (Image.blank 100 100) (Image.blank 20 20) ("NORMAL") ("normal")
      1 Position.topLeft 0 0 (by decide),
   blend_mode_case_insensitive.2 (Image.blank 100 100) (Image.blank 20 20) ("bogus")
      1 Position.topLeft 0 0 (by decide) (by decide)⟩

/-- C10: the overlap check precedes mode-name validation — whenever the
resolved placement fails the overlap test, `blend` returns the
outside-canvas error for every mode string, recognized or not. -/
theorem blend_overlap_checked_before_mode (image1 image2 : Image) (mode : String)
    (opacity : Rat) (position : Position) (dx dy : Int)
    (h : ¬((getXY position dx dy image1.width image1.height image2.width image2.height).1 < image1.width ∧
        0 < (getXY position dx dy image1.width image1.height image2.width image2.height).1 + image2.width ∧
        (getXY position dx dy image1.width image1.height image2.width image2.height).2 < image1.height ∧
        0 < (getXY position dx dy image1.width image1.height image2.width image2.height).2 + image2.height)) :
    blend image1 image2 mode opacity position dx dy =
      Except.error RasterError.blendingImageFallsOutsideCanvas :=
  blend_of_not_overlap image1 image2 mode opacity position dx dy h

/-- Witness for C10: an unrecognized mode name still yields the
outside-canvas error when the overlay misses the canvas. -/
theorem blend_overlap_checked_before_mode_witness :
    blend (Image.blank 50 50) (Image.blank 20 20) ("bogus") 1 Position.topLeft 60 0 =
      Except.error RasterError.blendingImageFallsOutsideCanvas :=
  blend_overlap_checked_before_mode (Image.blank 50 50) (Image.blank 20 20) ("bogus") 1
    Position.topLeft 60 0 (by decide)

/-- C9: `resize` fails with `InvalidResizeMode` carrying the supplied mode
name exactly when the mode is not one of the five valid names, leaving the
image unchanged on that path; each valid mode forwards to the corresponding
external resize operation with the dispatcher performing no geometry
itself. -/
theorem resize_dispatch :
    (∀ (ops : ResizeOps) (src : Image) (w h : Int) (mode : String),
        mode ∉ resizeModeNames →
        resize ops src w h mode = (Except.error (RasterError.invalidResizeMode mode), src)) ∧
    (∀ (ops : ResizeOps) (src : Image) (w h : Int),
        resize ops src w h ("exact") = ops.resize_exact src w h ∧
        resize ops src w h ("exact_width") = ops.resize_exact_width src w ∧
        resize ops src w h ("exact_height") = ops.resize_exact_height src h ∧
        resize ops src w h ("fit") = ops.resize_fit src w h ∧
        resize ops src w h ("fill") = ops.resize_fill src w h) := by
  constructor
  · intro ops src w h mode hmem
    simp only [resizeModeNames, List.mem_cons, List.not_mem_nil, or_false] at hmem
    push_neg at hmem
    obtain ⟨h1, h2, h3, h4, h5⟩ := hmem
    simp only [resize]
  · intro ops src w h
    exact ⟨rfl, rfl, rfl, rfl, rfl⟩

/-- Trivial instantiation of the external resize operations, for concrete
evaluation. -/
def trivialResizeOps : ResizeOps :=
  ⟨fun img _ _ => (Except.ok (), img), fun img _ => (Except.ok (), img),
   fun img _ => (Except.ok (), img), fun img _ _ => (Except.ok (), img),
   fun img _ _ => (Except.ok (), img)⟩

/-- Witness for C9 at concrete inputs. -/
theorem resize_dispatch_witness :
    resize trivialResizeOps (Image.blank 1 1) 2 2 ("bogus") =
      (Except.error (RasterError.invalidResizeMode ("bogus")), Image.blank 1 1) :=
  resize_dispatch.1 trivialResizeOps (Image.blank 1 1) 2 2 ("bogus") (by decide)

end Raster
